import Mathlib

/-!
Verification development for the `react_magnetic_di` SWC plugin
(`src/lib.rs` and `src/import_analysis.rs`).

The plugin is a mutating visitor over the ECMAScript AST of one module.  We
give a shallow embedding of the fragment of the AST the transform inspects,
and translate the two Rust files into pure state-passing Lean functions:

* `ImportSpecification`, `analyzeImportDecl`, `analyzeProgram` embed
  `import_analysis.rs` (`ImportAnalysis::visit_import_decl`).
* `TransformVisitor`, `visitIdent`, `visitFunction`, `visitClassDecl`,
  `visitVarDeclarator` (and the surrounding traversal functions) embed the
  `VisitMut for TransformVisitor` impl of `lib.rs`.  Node kinds without an
  overridden handler are traversed by the default child-visiting order of
  `swc_ecma_visit`, which the `visit...` functions below spell out.

Machine-level details that the transform never looks at (spans, `declare`
flags, decorators, type annotations, parameters of `Function` nodes — which
`visit_mut_function` never traverses) are omitted from the embedding.
Binding identity (`Ident::to_id()`, a pair of symbol and syntax context) is
modelled by `Ident.toId : String × Nat`.
-/

/-- An ECMAScript identifier: visible symbol text plus the syntax context
that makes up its binding identity (`swc` `Ident { sym, ctxt }`). -/
structure Ident where
  sym : String
  ctxt : Nat
deriving DecidableEq, Repr

/-- The binding identity of an identifier, `Ident::to_id()` in `swc`. -/
def Ident.toId (i : Ident) : String × Nat := (i.sym, i.ctxt)

/-- Kind of a variable declaration (`var`, `let`, `const`). -/
inductive VarDeclKind where
  | varKind
  | letKind
  | constKind
deriving DecidableEq, Repr

/-- One record of the import table, `ImportSpecification` of
`import_analysis.rs`. -/
structure ImportSpecification where
  symbol_id : String × Nat
  local_imported_symbol : String
  dependency_imported_symbol : String
  package_name : String
  is_type_only : Bool
deriving DecidableEq, Repr

/-- A pending replacement recorded by `visit_mut_ident`: the matched import
record together with the freshly generated alias symbol
(`ActiveReplacement` of `lib.rs`). -/
structure ActiveReplacement where
  imp : ImportSpecification
  symbol : String
deriving DecidableEq, Repr

/-- The mutable state of the transform (`TransformVisitor` of `lib.rs`). -/
structure TransformVisitor where
  imports : List ImportSpecification
  active_replacements : List ActiveReplacement
  is_in_replaceable_scope : Bool
  current_scope_symbol : Option String
deriving DecidableEq, Repr

mutual

/-- Expressions of the embedded AST fragment.  `jsx` is a self-closing JSX
element whose tag name is an identifier reference (as in `<Modal/>`);
`arrow` is an arrow function with a block body (`swc` `ArrowExpr`, which
contains no `Function` node). -/
inductive Expr where
  | identE (i : Ident)
  | jsx (name : Ident)
  | lit (n : Int)
  | arrow (params : PatList) (body : StmtList)
  | call (callee : Expr) (args : ExprList)
  | arrayE (elems : ExprList)
deriving DecidableEq

inductive ExprList where
  | nil
  | cons (e : Expr) (tl : ExprList)
deriving DecidableEq

inductive OptExpr where
  | noneE
  | someE (e : Expr)
deriving DecidableEq

/-- Binding patterns: a binding identifier or an array destructuring
pattern. -/
inductive Pat where
  | identP (i : Ident)
  | arrayP (elems : PatList)
deriving DecidableEq

inductive PatList where
  | nil
  | cons (p : Pat) (tl : PatList)
deriving DecidableEq

/-- A `VarDeclarator`: a pattern and an optional initializer. -/
inductive VarDeclarator where
  | mk (name : Pat) (init : OptExpr)
deriving DecidableEq

inductive DeclaratorList where
  | nil
  | cons (d : VarDeclarator) (tl : DeclaratorList)
deriving DecidableEq

inductive OptStmts where
  | noneS
  | someS (stmts : StmtList)
deriving DecidableEq

/-- A `swc` `Function` node: an optional block body.  (Parameters and the
other fields are never traversed by the plugin's `visit_mut_function`,
which visits only the body's children.) -/
inductive Fn where
  | mk (body : OptStmts)
deriving DecidableEq

/-- A class method: property name (as text) and a `Function` node. -/
inductive ClassMethod where
  | mk (key : String) (function : Fn)
deriving DecidableEq

inductive MethodList where
  | nil
  | cons (m : ClassMethod) (tl : MethodList)
deriving DecidableEq

/-- A class declaration: name, optional superclass expression, methods. -/
inductive ClassDecl where
  | mk (ident : Ident) (superClass : OptExpr) (body : MethodList)
deriving DecidableEq

/-- Statements of the embedded fragment. -/
inductive Stmt where
  | ret (arg : OptExpr)
  | exprStmt (e : Expr)
  | varDecl (kind : VarDeclKind) (decls : DeclaratorList)
  | fnDecl (ident : Ident) (function : Fn)
  | classDecl (c : ClassDecl)
  | emptyStmt
deriving DecidableEq

inductive StmtList where
  | nil
  | cons (s : Stmt) (tl : StmtList)
deriving DecidableEq

end

/-- Length of a statement list. -/
def stmtListLength : StmtList → Nat
  | .nil => 0
  | .cons _ tl => 1 + stmtListLength tl

/-- An import specifier (`swc` `ImportSpecifier`): named (with optional
source-side name and an individual type-only flag), default, or
namespace (`import * as x`). -/
inductive ImportSpecifier where
  | named (localName : Ident) (imported : Option String) (isTypeOnly : Bool)
  | defaultSpec (localName : Ident)
  | namespaceSpec (localName : Ident)
deriving DecidableEq, Repr

/-- An import declaration: its specifiers, the module specifier string
(`src`), and the declaration-level type-only flag. -/
structure ImportDecl where
  specifiers : List ImportSpecifier
  src : String
  typeOnly : Bool
deriving DecidableEq, Repr

/-- A top-level module item: an import declaration or a statement. -/
inductive ModuleItem where
  | importItem (d : ImportDecl)
  | stmtItem (s : Stmt)
deriving DecidableEq

/-- The record built for one specifier by `ImportAnalysis::visit_import_decl`
(the three `match` arms of `import_analysis.rs`). -/
def specOfSpecifier (packageName : String) (declTypeOnly : Bool) :
    ImportSpecifier → ImportSpecification
  | .named l imported ito =>
    { symbol_id := l.toId
      local_imported_symbol := l.sym
      dependency_imported_symbol := imported.getD l.sym
      package_name := packageName
      is_type_only := ito }
  | .defaultSpec l =>
    { symbol_id := l.toId
      local_imported_symbol := l.sym
      dependency_imported_symbol := l.sym
      package_name := packageName
      is_type_only := declTypeOnly }
  | .namespaceSpec l =>
    { symbol_id := l.toId
      local_imported_symbol := l.sym
      dependency_imported_symbol := l.sym
      package_name := packageName
      is_type_only := declTypeOnly }

/-- `ImportAnalysis::visit_import_decl`: skip a declaration that is
type-only as a whole, otherwise record every specifier. -/
def analyzeImportDecl (node : ImportDecl) : List ImportSpecification :=
  if node.typeOnly then []
  else node.specifiers.map (specOfSpecifier node.src node.typeOnly)

/-- The read-only `ImportAnalysis` pass over the whole module (import
declarations occur only as top-level items). -/
def analyzeProgram : List ModuleItem → List ImportSpecification
  | [] => []
  | .importItem d :: rest => analyzeImportDecl d ++ analyzeProgram rest
  | .stmtItem _ :: rest => analyzeProgram rest

/-- The import-table lookup performed by `visit_mut_ident`:
`self.imports.iter().find(|spec| spec.symbol_id == node_id)`. -/
def matchedSpec (im : List ImportSpecification) (i : Ident) :
    Option ImportSpecification :=
  im.find? fun spec => decide (spec.symbol_id = i.toId)

/-- `TransformVisitor::visit_mut_ident`: outside a replaceable scope do
nothing; otherwise look the identifier up by binding identity and, on a
match, overwrite its symbol with `"_" + local_imported_symbol` and push an
`ActiveReplacement`. -/
def visitIdent (st : TransformVisitor) (node : Ident) :
    TransformVisitor × Ident :=
  if !st.is_in_replaceable_scope then (st, node)
  else
    match matchedSpec st.imports node with
    | none => (st, node)
    | some imp =>
      let newSymbol := "_" ++ imp.local_imported_symbol
      ({ st with active_replacements :=
          st.active_replacements ++ [⟨imp, newSymbol⟩] },
       { node with sym := newSymbol })

/-- The statement synthesized by the `quote!` template of
`visit_mut_function`: `const [$binding] = _di([$local_sym], $scope)`.
Freshly quoted identifiers carry syntax context `0`. -/
def mkInjectionStmt (scopeSym : String) (r : ActiveReplacement) : Stmt :=
  .varDecl .constKind
    (.cons
      (.mk (.arrayP (.cons (.identP ⟨r.symbol, 0⟩) .nil))
        (.someE (.call (.identE ⟨"_di", 0⟩)
          (.cons (.arrayE (.cons (.identE ⟨r.imp.local_imported_symbol, 0⟩) .nil))
            (.cons (.identE ⟨scopeSym, 0⟩) .nil)))))
      .nil)

/-- Prepend the synthesized declarations for a list of replacements, in
accumulation order, to the original statements (the `chain` at the end of
`visit_mut_function`). -/
def injectionStmts (scopeSym : String) :
    List ActiveReplacement → StmtList → StmtList
  | [], rest => rest
  | r :: rs, rest => .cons (mkInjectionStmt scopeSym r) (injectionStmts scopeSym rs rest)

mutual

/-- Default traversal of an expression (no override in `lib.rs`): visit the
identifiers it contains in source order.  An arrow function reached here
visits its parameters and then its body's statements; it contains no
`Function` node, so `visit_mut_function` never runs for it. -/
def visitExpr (st : TransformVisitor) : Expr → TransformVisitor × Expr
  | .identE i =>
    let p := visitIdent st i
    (p.1, .identE p.2)
  | .jsx i =>
    let p := visitIdent st i
    (p.1, .jsx p.2)
  | .lit n => (st, .lit n)
  | .arrow ps body =>
    let p := visitPatList st ps
    let q := visitStmtList p.1 body
    (q.1, .arrow p.2 q.2)
  | .call f args =>
    let p := visitExpr st f
    let q := visitExprList p.1 args
    (q.1, .call p.2 q.2)
  | .arrayE es =>
    let p := visitExprList st es
    (p.1, .arrayE p.2)

def visitExprList (st : TransformVisitor) : ExprList → TransformVisitor × ExprList
  | .nil => (st, .nil)
  | .cons e tl =>
    let p := visitExpr st e
    let q := visitExprList p.1 tl
    (q.1, .cons p.2 q.2)

def visitOptExpr (st : TransformVisitor) : OptExpr → TransformVisitor × OptExpr
  | .noneE => (st, .noneE)
  | .someE e =>
    let p := visitExpr st e
    (p.1, .someE p.2)

def visitPat (st : TransformVisitor) : Pat → TransformVisitor × Pat
  | .identP i =>
    let p := visitIdent st i
    (p.1, .identP p.2)
  | .arrayP ps =>
    let p := visitPatList st ps
    (p.1, .arrayP p.2)

def visitPatList (st : TransformVisitor) : PatList → TransformVisitor × PatList
  | .nil => (st, .nil)
  | .cons p tl =>
    let a := visitPat st p
    let b := visitPatList a.1 tl
    (b.1, .cons a.2 b.2)

/-- `TransformVisitor::visit_mut_var_declarator`.  The declarator gets the
special arrow treatment exactly when no scope name is active, its name is a
plain binding identifier and its initializer is an arrow function: then the
scope name is set to the variable name, only the arrow's children (its
parameters and body, not the declarator's name pattern) are visited, and the
scope name is reset to `None`.  Every other combination falls through to the
default child traversal (name pattern, then initializer); the Rust code
reaches that same traversal through each of its early-`return` branches. -/
def visitVarDeclarator (st : TransformVisitor) :
    VarDeclarator → TransformVisitor × VarDeclarator
  | .mk name init =>
    match st.current_scope_symbol, name, init with
    | none, .identP ident, .someE (.arrow ps body) =>
      let p := visitPatList { st with current_scope_symbol := some ident.sym } ps
      let q := visitStmtList p.1 body
      ({ q.1 with current_scope_symbol := none },
       .mk (.identP ident) (.someE (.arrow p.2 q.2)))
    | _, n, i =>
      let p := visitPat st n
      let q := visitOptExpr p.1 i
      (q.1, .mk p.2 q.2)

def visitDeclaratorList (st : TransformVisitor) :
    DeclaratorList → TransformVisitor × DeclaratorList
  | .nil => (st, .nil)
  | .cons d tl =>
    let p := visitVarDeclarator st d
    let q := visitDeclaratorList p.1 tl
    (q.1, .cons p.2 q.2)

/-- `TransformVisitor::visit_mut_function`.  Return immediately when the
body is absent or no scope name is active.  Otherwise set the replaceable
flag, traverse the body's children, unconditionally clear the flag, `take`
the whole accumulated replacement list and prepend one synthesized
declaration per replacement. -/
def visitFunction (st : TransformVisitor) : Fn → TransformVisitor × Fn
  | .mk body =>
    match body, st.current_scope_symbol with
    | .someS stmts, some scopeSym =>
      let st1 := { st with is_in_replaceable_scope := true }
      let p := visitStmtList st1 stmts
      let st2 := { p.1 with is_in_replaceable_scope := false }
      let st3 := { st2 with active_replacements := [] }
      (st3, .mk (.someS (injectionStmts scopeSym st2.active_replacements p.2)))
    | b, _ => (st, .mk b)

def visitMethod (st : TransformVisitor) : ClassMethod → TransformVisitor × ClassMethod
  | .mk key f =>
    let p := visitFunction st f
    (p.1, .mk key p.2)

def visitMethodList (st : TransformVisitor) : MethodList → TransformVisitor × MethodList
  | .nil => (st, .nil)
  | .cons m tl =>
    let p := visitMethod st m
    let q := visitMethodList p.1 tl
    (q.1, .cons p.2 q.2)

/-- `TransformVisitor::visit_mut_class_decl`: set the scope name to the
class name, visit the children (name, then class members, then the
superclass expression, following the field order of `swc` `Class`), then
set the scope name to `None`. -/
def visitClassDecl (st : TransformVisitor) : ClassDecl → TransformVisitor × ClassDecl
  | .mk ident superClass body =>
    let st1 := { st with current_scope_symbol := some ident.sym }
    let p := visitIdent st1 ident
    let q := visitMethodList p.1 body
    let r := visitOptExpr q.1 superClass
    ({ r.1 with current_scope_symbol := none }, .mk p.2 r.2 q.2)

/-- Statement traversal.  `fnDecl` embeds `visit_mut_fn_decl`: when no scope
name is active, set it to the function name around the child traversal and
reset it to `None` afterwards; otherwise just traverse the children (name,
then `Function`). -/
def visitStmt (st : TransformVisitor) : Stmt → TransformVisitor × Stmt
  | .ret a =>
    let p := visitOptExpr st a
    (p.1, .ret p.2)
  | .exprStmt e =>
    let p := visitExpr st e
    (p.1, .exprStmt p.2)
  | .varDecl kind ds =>
    let p := visitDeclaratorList st ds
    (p.1, .varDecl kind p.2)
  | .fnDecl ident f =>
    match st.current_scope_symbol with
    | none =>
      let st1 := { st with current_scope_symbol := some ident.sym }
      let p := visitIdent st1 ident
      let q := visitFunction p.1 f
      ({ q.1 with current_scope_symbol := none }, .fnDecl p.2 q.2)
    | some _ =>
      let p := visitIdent st ident
      let q := visitFunction p.1 f
      (q.1, .fnDecl p.2 q.2)
  | .classDecl c =>
    let p := visitClassDecl st c
    (p.1, .classDecl p.2)
  | .emptyStmt => (st, .emptyStmt)

def visitStmtList (st : TransformVisitor) : StmtList → TransformVisitor × StmtList
  | .nil => (st, .nil)
  | .cons s tl =>
    let p := visitStmt st s
    let q := visitStmtList p.1 tl
    (q.1, .cons p.2 q.2)

end

/-- Default traversal of one import specifier: its local binding identifier
is an `Ident` child, so `visit_mut_ident` runs on it. -/
def visitImportSpecifierNode (st : TransformVisitor) :
    ImportSpecifier → TransformVisitor × ImportSpecifier
  | .named l imported ito =>
    let p := visitIdent st l
    (p.1, .named p.2 imported ito)
  | .defaultSpec l =>
    let p := visitIdent st l
    (p.1, .defaultSpec p.2)
  | .namespaceSpec l =>
    let p := visitIdent st l
    (p.1, .namespaceSpec p.2)

def visitImportSpecifiers (st : TransformVisitor) :
    List ImportSpecifier → TransformVisitor × List ImportSpecifier
  | [] => (st, [])
  | s :: rest =>
    let p := visitImportSpecifierNode st s
    let q := visitImportSpecifiers p.1 rest
    (q.1, p.2 :: q.2)

/-- Default traversal of an import declaration (no override in `lib.rs`). -/
def visitImportDeclNode (st : TransformVisitor) (d : ImportDecl) :
    TransformVisitor × ImportDecl :=
  let p := visitImportSpecifiers st d.specifiers
  (p.1, { d with specifiers := p.2 })

def visitModuleItem (st : TransformVisitor) : ModuleItem → TransformVisitor × ModuleItem
  | .importItem d =>
    let p := visitImportDeclNode st d
    (p.1, .importItem p.2)
  | .stmtItem s =>
    let p := visitStmt st s
    (p.1, .stmtItem p.2)

def visitModuleItems (st : TransformVisitor) :
    List ModuleItem → TransformVisitor × List ModuleItem
  | [] => (st, [])
  | item :: rest =>
    let p := visitModuleItem st item
    let q := visitModuleItems p.1 rest
    (q.1, p.2 :: q.2)

/-- `TransformVisitor::visit_mut_program`: run the read-only import
analysis, store the table, then run the mutating child traversal starting
from the default state (`TransformVisitor::default()`). -/
def transformProgram (items : List ModuleItem) : List ModuleItem :=
  let specs := analyzeProgram items
  (visitModuleItems
    { imports := specs
      active_replacements := []
      is_in_replaceable_scope := false
      current_scope_symbol := none } items).2

/-- The import declarations of a module, in order. -/
def importDeclsOf (items : List ModuleItem) : List ImportDecl :=
  items.filterMap fun item =>
    match item with
    | .importItem d => some d
    | .stmtItem _ => none

/-! ### Concrete modules used by the claims -/

/-- `import React, { Component } from 'react';` -/
def reactImportDecl : ImportDecl :=
  ⟨[.defaultSpec ⟨"React", 1⟩, .named ⟨"Component", 2⟩ none false], "react", false⟩

/-- `import Modal from 'modal';` — the local `Modal` binding has identity
`("Modal", 3)`; references bound to it share that identity. -/
def modalImportDecl : ImportDecl :=
  ⟨[.defaultSpec ⟨"Modal", 3⟩], "modal", false⟩

/-- The import-table record the analysis builds for the `Modal` import. -/
def modalSpec : ImportSpecification :=
  ⟨("Modal", 3), "Modal", "Modal", "modal", false⟩

/-- `render() { return <Modal/>; }` -/
def renderBody : StmtList := .cons (.ret (.someE (.jsx ⟨"Modal", 3⟩))) .nil

/-- `class MyComponent extends Component { render() { return <Modal/>; } }` -/
def myComponentClass : ClassDecl :=
  .mk ⟨"MyComponent", 4⟩ (.someE (.identE ⟨"Component", 2⟩))
    (.cons (.mk "render" (.mk (.someS renderBody))) .nil)

/-- The class-component module of the first inline test of `lib.rs`. -/
def classComponentModule : List ModuleItem :=
  [.importItem reactImportDecl, .importItem modalImportDecl,
   .stmtItem (.classDecl myComponentClass)]

/-- The statement `const [_Modal] = _di([Modal], MyComponent);`, spelled out
as an AST literal. -/
def modalInjectionStmt : Stmt :=
  .varDecl .constKind
    (.cons
      (.mk (.arrayP (.cons (.identP ⟨"_Modal", 0⟩) .nil))
        (.someE (.call (.identE ⟨"_di", 0⟩)
          (.cons (.arrayE (.cons (.identE ⟨"Modal", 0⟩) .nil))
            (.cons (.identE ⟨"MyComponent", 0⟩) .nil)))))
      .nil)

/-- The expected transformed module: `render` starts with the injected
`const` declaration, the `<Modal/>` reference is renamed to `<_Modal/>`
(keeping its syntax context), and both import declarations are unchanged. -/
def classComponentExpected : List ModuleItem :=
  [.importItem reactImportDecl, .importItem modalImportDecl,
   .stmtItem (.classDecl (.mk ⟨"MyComponent", 4⟩ (.someE (.identE ⟨"Component", 2⟩))
     (.cons (.mk "render"
       (.mk (.someS (.cons modalInjectionStmt
         (.cons (.ret (.someE (.jsx ⟨"_Modal", 3⟩))) .nil)))))
       .nil)))]


/-! ### Specification-side description of one plain body traversal

For function bodies that contain no nested `Function` nodes (no function
declarations and no class declarations with methods — here: no `fnDecl` and
no `classDecl` statements at all), the stateful traversal above is refined
by two stateless structural functions: `rename...` renames every matching
identifier reference to its alias, and `collect...` lists the
`ActiveReplacement`s in traversal (first-occurrence) order. -/

/-- Rename one identifier when its binding identity matches the import
table, as `visit_mut_ident` does on a match. -/
def renameIdent (im : List ImportSpecification) (i : Ident) : Ident :=
  match matchedSpec im i with
  | none => i
  | some imp => { i with sym := "_" ++ imp.local_imported_symbol }

/-- The replacements (zero or one) recorded for one identifier. -/
def collectIdent (im : List ImportSpecification) (i : Ident) :
    List ActiveReplacement :=
  match matchedSpec im i with
  | none => []
  | some imp => [⟨imp, "_" ++ imp.local_imported_symbol⟩]

mutual

def renameExpr (im : List ImportSpecification) : Expr → Expr
  | .identE i => .identE (renameIdent im i)
  | .jsx i => .jsx (renameIdent im i)
  | .lit n => .lit n
  | .arrow ps body => .arrow (renamePatList im ps) (renameStmtList im body)
  | .call f args => .call (renameExpr im f) (renameExprList im args)
  | .arrayE es => .arrayE (renameExprList im es)

def renameExprList (im : List ImportSpecification) : ExprList → ExprList
  | .nil => .nil
  | .cons e tl => .cons (renameExpr im e) (renameExprList im tl)

def renameOptExpr (im : List ImportSpecification) : OptExpr → OptExpr
  | .noneE => .noneE
  | .someE e => .someE (renameExpr im e)

def renamePat (im : List ImportSpecification) : Pat → Pat
  | .identP i => .identP (renameIdent im i)
  | .arrayP ps => .arrayP (renamePatList im ps)

def renamePatList (im : List ImportSpecification) : PatList → PatList
  | .nil => .nil
  | .cons p tl => .cons (renamePat im p) (renamePatList im tl)

def renameDeclarator (im : List ImportSpecification) : VarDeclarator → VarDeclarator
  | .mk name init => .mk (renamePat im name) (renameOptExpr im init)

def renameDeclaratorList (im : List ImportSpecification) :
    DeclaratorList → DeclaratorList
  | .nil => .nil
  | .cons d tl => .cons (renameDeclarator im d) (renameDeclaratorList im tl)

def renameStmt (im : List ImportSpecification) : Stmt → Stmt
  | .ret a => .ret (renameOptExpr im a)
  | .exprStmt e => .exprStmt (renameExpr im e)
  | .varDecl kind ds => .varDecl kind (renameDeclaratorList im ds)
  | .fnDecl ident f => .fnDecl ident f
  | .classDecl c => .classDecl c
  | .emptyStmt => .emptyStmt

def renameStmtList (im : List ImportSpecification) : StmtList → StmtList
  | .nil => .nil
  | .cons s tl => .cons (renameStmt im s) (renameStmtList im tl)

end

mutual

def collectExpr (im : List ImportSpecification) : Expr → List ActiveReplacement
  | .identE i => collectIdent im i
  | .jsx i => collectIdent im i
  | .lit _ => []
  | .arrow ps body => collectPatList im ps ++ collectStmtList im body
  | .call f args => collectExpr im f ++ collectExprList im args
  | .arrayE es => collectExprList im es

def collectExprList (im : List ImportSpecification) : ExprList → List ActiveReplacement
  | .nil => []
  | .cons e tl => collectExpr im e ++ collectExprList im tl

def collectOptExpr (im : List ImportSpecification) : OptExpr → List ActiveReplacement
  | .noneE => []
  | .someE e => collectExpr im e

def collectPat (im : List ImportSpecification) : Pat → List ActiveReplacement
  | .identP i => collectIdent im i
  | .arrayP ps => collectPatList im ps

def collectPatList (im : List ImportSpecification) : PatList → List ActiveReplacement
  | .nil => []
  | .cons p tl => collectPat im p ++ collectPatList im tl

def collectDeclarator (im : List ImportSpecification) :
    VarDeclarator → List ActiveReplacement
  | .mk name init => collectPat im name ++ collectOptExpr im init

def collectDeclaratorList (im : List ImportSpecification) :
    DeclaratorList → List ActiveReplacement
  | .nil => []
  | .cons d tl => collectDeclarator im d ++ collectDeclaratorList im tl

def collectStmt (im : List ImportSpecification) : Stmt → List ActiveReplacement
  | .ret a => collectOptExpr im a
  | .exprStmt e => collectExpr im e
  | .varDecl _ ds => collectDeclaratorList im ds
  | .fnDecl _ _ => []
  | .classDecl _ => []
  | .emptyStmt => []

def collectStmtList (im : List ImportSpecification) : StmtList → List ActiveReplacement
  | .nil => []
  | .cons s tl => collectStmt im s ++ collectStmtList im tl

end

mutual

/-- A plain expression: one containing no `Function` node (arrows qualify,
since `ArrowExpr` holds its block directly). -/
def plainExpr : Expr → Bool
  | .identE _ => true
  | .jsx _ => true
  | .lit _ => true
  | .arrow ps body => plainPatList ps && plainStmtList body
  | .call f args => plainExpr f && plainExprList args
  | .arrayE es => plainExprList es

def plainExprList : ExprList → Bool
  | .nil => true
  | .cons e tl => plainExpr e && plainExprList tl

def plainOptExpr : OptExpr → Bool
  | .noneE => true
  | .someE e => plainExpr e

def plainPat : Pat → Bool
  | .identP _ => true
  | .arrayP ps => plainPatList ps

def plainPatList : PatList → Bool
  | .nil => true
  | .cons p tl => plainPat p && plainPatList tl

def plainDeclarator : VarDeclarator → Bool
  | .mk name init => plainPat name && plainOptExpr init

def plainDeclaratorList : DeclaratorList → Bool
  | .nil => true
  | .cons d tl => plainDeclarator d && plainDeclaratorList tl

/-- A plain statement: no function or class declarations (hence no nested
`Function` node anywhere below it). -/
def plainStmt : Stmt → Bool
  | .ret a => plainOptExpr a
  | .exprStmt e => plainExpr e
  | .varDecl _ ds => plainDeclaratorList ds
  | .fnDecl _ _ => false
  | .classDecl _ => false
  | .emptyStmt => true

def plainStmtList : StmtList → Bool
  | .nil => true
  | .cons s tl => plainStmt s && plainStmtList tl

end

/-- A fresh replacement record for a matched `Modal` reference. -/
def modalReplacement : ActiveReplacement := ⟨modalSpec, "_Modal"⟩

/-- The transform state right after `visit_mut_program` stored the table
for a module importing only `Modal`. -/
def initialModalState : TransformVisitor := ⟨[modalSpec], [], false, none⟩

/-- `import { type X } from 'pkg';` as parsed: the declaration itself is
not type-only, the single named specifier is individually type-only. -/
def typeOnlySpecifierImport : ImportDecl :=
  ⟨[.named ⟨"X", 1⟩ none true], "pkg", false⟩

/-- The record the analysis builds for the individually type-only `X`. -/
def xSpec : ImportSpecification := ⟨("X", 1), "X", "X", "pkg", true⟩

/-- A module with an individually type-only named import and a function
component referencing it:
`import { type X } from 'pkg'; function F() { return X; }`. -/
def typeOnlySpecifierModule : List ModuleItem :=
  [.importItem typeOnlySpecifierImport,
   .stmtItem (.fnDecl ⟨"F", 2⟩
     (.mk (.someS (.cons (.ret (.someE (.identE ⟨"X", 1⟩))) .nil))))]

/-- What the transform actually produces for `typeOnlySpecifierModule`:
the `X` reference is renamed and an injection is synthesized. -/
def typeOnlySpecifierExpected : List ModuleItem :=
  [.importItem typeOnlySpecifierImport,
   .stmtItem (.fnDecl ⟨"F", 2⟩
     (.mk (.someS (.cons (mkInjectionStmt "F" ⟨xSpec, "_X"⟩)
       (.cons (.ret (.someE (.identE ⟨"_X", 1⟩))) .nil)))))]

/-- `function F() { Modal; function G() {} Modal; }` with `Modal` imported:
a reference before a nested function and a reference after it. -/
def nestedOuterFn : Stmt :=
  .fnDecl ⟨"F", 10⟩ (.mk (.someS
    (.cons (.exprStmt (.identE ⟨"Modal", 3⟩))
      (.cons (.fnDecl ⟨"G", 11⟩ (.mk (.someS .nil)))
        (.cons (.exprStmt (.identE ⟨"Modal", 3⟩)) .nil)))))

/-- What the code produces for `nestedOuterFn`: the first reference is
renamed, its replacement is synthesized into the *nested* `G` body, and the
second reference stays untouched because finishing `G`'s body cleared the
replaceable flag; `F` itself gets nothing prepended. -/
def nestedOuterExpected : Stmt :=
  .fnDecl ⟨"F", 10⟩ (.mk (.someS
    (.cons (.exprStmt (.identE ⟨"_Modal", 3⟩))
      (.cons (.fnDecl ⟨"G", 11⟩
          (.mk (.someS (.cons (mkInjectionStmt "F" modalReplacement) .nil))))
        (.cons (.exprStmt (.identE ⟨"Modal", 3⟩)) .nil)))))

/-- `function F() { Modal; Modal; function G() {} }`: two matches recorded
in `F`'s body before the nested function is entered. -/
def doubleThenNestedFn : Stmt :=
  .fnDecl ⟨"F", 10⟩ (.mk (.someS
    (.cons (.exprStmt (.identE ⟨"Modal", 3⟩))
      (.cons (.exprStmt (.identE ⟨"Modal", 3⟩))
        (.cons (.fnDecl ⟨"G", 11⟩ (.mk (.someS .nil))) .nil)))))

/-- What the code produces for `doubleThenNestedFn`: both replacements
recorded in `F`'s traversal are synthesized into the nested `G` body, and
`F`'s own body gets no prepended declarations. -/
def doubleThenNestedExpected : Stmt :=
  .fnDecl ⟨"F", 10⟩ (.mk (.someS
    (.cons (.exprStmt (.identE ⟨"_Modal", 3⟩))
      (.cons (.exprStmt (.identE ⟨"_Modal", 3⟩))
        (.cons (.fnDecl ⟨"G", 11⟩
            (.mk (.someS (.cons (mkInjectionStmt "F" modalReplacement)
              (.cons (mkInjectionStmt "F" modalReplacement) .nil))))) .nil)))))

/-- What per-body-scoped replacement lists (the claimed behavior) would
dictate for `doubleThenNestedFn`: `F` gets its own two declarations
prepended and the nested `G` body stays empty. -/
def doubleThenNestedClaimPredicted : Stmt :=
  .fnDecl ⟨"F", 10⟩ (.mk (.someS
    (.cons (mkInjectionStmt "F" modalReplacement)
      (.cons (mkInjectionStmt "F" modalReplacement)
        (.cons (.exprStmt (.identE ⟨"_Modal", 3⟩))
          (.cons (.exprStmt (.identE ⟨"_Modal", 3⟩))
            (.cons (.fnDecl ⟨"G", 11⟩ (.mk (.someS .nil))) .nil)))))))

/-- A state in which an enclosing component scope `Outer` is active. -/
def outerScopedState : TransformVisitor := ⟨[], [], false, some "Outer"⟩

/-- `class Inner {}`, to be visited while `Outer` is active. -/
def innerClass : ClassDecl := .mk ⟨"Inner", 9⟩ .noneE .nil

/-- `function MyComponent() { return <Modal/>; }` with the two imports. -/
def fnComponentModule : List ModuleItem :=
  [.importItem reactImportDecl, .importItem modalImportDecl,
   .stmtItem (.fnDecl ⟨"MyComponent", 4⟩ (.mk (.someS renderBody)))]

/-- The transformed function component: injection plus rename. -/
def fnComponentExpected : List ModuleItem :=
  [.importItem reactImportDecl, .importItem modalImportDecl,
   .stmtItem (.fnDecl ⟨"MyComponent", 4⟩ (.mk (.someS
     (.cons modalInjectionStmt
       (.cons (.ret (.someE (.jsx ⟨"_Modal", 3⟩))) .nil)))))]

/-- `const MyComponent = () => { return <Modal/>; }` with the two imports
(the third inline test of `lib.rs`). -/
def arrowComponentModule : List ModuleItem :=
  [.importItem reactImportDecl, .importItem modalImportDecl,
   .stmtItem (.varDecl .constKind
     (.cons (.mk (.identP ⟨"MyComponent", 4⟩)
       (.someE (.arrow .nil renderBody))) .nil))]

/-- The output the arrow-component inline test of `lib.rs` asserts: same
injection and rename as the function component. -/
def arrowComponentTestExpected : List ModuleItem :=
  [.importItem reactImportDecl, .importItem modalImportDecl,
   .stmtItem (.varDecl .constKind
     (.cons (.mk (.identP ⟨"MyComponent", 4⟩)
       (.someE (.arrow .nil
         (.cons modalInjectionStmt
           (.cons (.ret (.someE (.jsx ⟨"_Modal", 3⟩))) .nil))))) .nil))]

/-- `import Modal from 'modal'; function F() { const Modal = 5; return
Modal; }` — the local `Modal` has binding identity `("Modal", 7)`, distinct
from the import's `("Modal", 3)`. -/
def shadowModule : List ModuleItem :=
  [.importItem modalImportDecl,
   .stmtItem (.fnDecl ⟨"F", 5⟩ (.mk (.someS
     (.cons (.varDecl .constKind
       (.cons (.mk (.identP ⟨"Modal", 7⟩) (.someE (.lit 5))) .nil))
       (.cons (.ret (.someE (.identE ⟨"Modal", 7⟩))) .nil)))))]

/-- A mid-body state: inside `F`'s replaceable body with the `Modal` import
in the table. -/
def shadowState : TransformVisitor := ⟨[modalSpec], [], true, some "F"⟩

/-- The locally shadowed `Modal` reference. -/
def shadowedModalIdent : Ident := ⟨"Modal", 7⟩

/-- The import record for a binding `M8` with identity `("M8", 8)`. -/
def m8Spec : ImportSpecification := ⟨("M8", 8), "M8", "M8", "m8", false⟩

/-- The replacement generated for a matched `M8` reference. -/
def m8Replacement : ActiveReplacement := ⟨m8Spec, "_M8"⟩

/-- A state about to visit a function body under scope `F8` with `M8` in
the import table. -/
def c8State : TransformVisitor := ⟨[m8Spec], [], false, some "F8"⟩

/-- A body with two `M8` references separated by a nested function:
`return <M8/>; function H() {} M8;`. -/
def splitBody : StmtList :=
  .cons (.ret (.someE (.jsx ⟨"M8", 8⟩)))
    (.cons (.fnDecl ⟨"H", 12⟩ (.mk (.someS .nil)))
      (.cons (.exprStmt (.identE ⟨"M8", 8⟩)) .nil))

/-- What the code produces for `splitBody`: only the first reference is
renamed, its declaration lands inside `H`, nothing is prepended to the
outer body, and the second reference is untouched. -/
def splitBodyExpected : StmtList :=
  .cons (.ret (.someE (.jsx ⟨"_M8", 8⟩)))
    (.cons (.fnDecl ⟨"H", 12⟩
        (.mk (.someS (.cons (mkInjectionStmt "F8" m8Replacement) .nil))))
      (.cons (.exprStmt (.identE ⟨"M8", 8⟩)) .nil))

/-- What the claim (every matching reference renamed, one leading
declaration per match) would dictate for `splitBody`. -/
def splitBodyClaimPredicted : StmtList :=
  .cons (mkInjectionStmt "F8" m8Replacement)
    (.cons (mkInjectionStmt "F8" m8Replacement)
      (.cons (.ret (.someE (.jsx ⟨"_M8", 8⟩)))
        (.cons (.fnDecl ⟨"H", 12⟩ (.mk (.someS .nil)))
          (.cons (.exprStmt (.identE ⟨"_M8", 8⟩)) .nil))))

/-- `import Modal from 'modal'; function Dup() { return <Modal/>; Modal; }`
— two references to the same import in one plain body. -/
def dupRefModule : List ModuleItem :=
  [.importItem modalImportDecl,
   .stmtItem (.fnDecl ⟨"Dup", 6⟩ (.mk (.someS
     (.cons (.ret (.someE (.jsx ⟨"Modal", 3⟩)))
       (.cons (.exprStmt (.identE ⟨"Modal", 3⟩)) .nil)))))]

/-- The transformed `dupRefModule`: both references renamed to the same
alias and two identical declarations prepended, without deduplication. -/
def dupRefExpected : List ModuleItem :=
  [.importItem modalImportDecl,
   .stmtItem (.fnDecl ⟨"Dup", 6⟩ (.mk (.someS
     (.cons (mkInjectionStmt "Dup" modalReplacement)
       (.cons (mkInjectionStmt "Dup" modalReplacement)
         (.cons (.ret (.someE (.jsx ⟨"_Modal", 3⟩)))
           (.cons (.exprStmt (.identE ⟨"_Modal", 3⟩)) .nil)))))))]

/-- A one-reference plain body used to witness the amended duplication
theorem at a concrete input. -/
def witnessBody : StmtList := .cons (.exprStmt (.identE ⟨"M8", 8⟩)) .nil

/-- An arbitrary concrete state for the same witness. -/
def c8WitnessState : TransformVisitor := ⟨[m8Spec], [m8Replacement], true, none⟩

/-! ### Basic lemmas about `visitIdent` -/

theorem visitIdent_false (st : TransformVisitor) (i : Ident)
    (hf : st.is_in_replaceable_scope = false) : visitIdent st i = (st, i) := by
  unfold visitIdent
  rw [hf]
  rfl

theorem visitIdent_true (st : TransformVisitor) (i : Ident)
    (hf : st.is_in_replaceable_scope = true) :
    visitIdent st i =
      ({ st with active_replacements :=
          st.active_replacements ++ collectIdent st.imports i },
       renameIdent st.imports i) := by
  obtain ⟨im, ar, fl, cs⟩ := st
  replace hf : fl = true := hf
  subst hf
  unfold visitIdent renameIdent collectIdent
  cases h : matchedSpec im i with
  | none => simp [h]
  | some imp => simp [h]

theorem visitIdent_flag (st : TransformVisitor) (i : Ident) :
    (visitIdent st i).1.is_in_replaceable_scope = st.is_in_replaceable_scope := by
  unfold visitIdent
  split
  · rfl
  · split <;> rfl

/-! ### The replaceable flag never turns on across a completed visit

`is_in_replaceable_scope` is written only by `visit_mut_function`, which
sets it and then unconditionally clears it before returning; so a visit of
any node that starts with the flag off ends with the flag off. -/

mutual

theorem flagFalse_visitExpr (st : TransformVisitor) (e : Expr)
    (hf : st.is_in_replaceable_scope = false) :
    (visitExpr st e).1.is_in_replaceable_scope = false := by
  cases e with
  | identE i => simp only [visitExpr]; rw [visitIdent_flag]; exact hf
  | jsx i => simp only [visitExpr]; rw [visitIdent_flag]; exact hf
  | lit n => simpa only [visitExpr] using hf
  | arrow ps body =>
    simp only [visitExpr]
    exact flagFalse_visitStmtList _ _ (flagFalse_visitPatList _ _ hf)
  | call f args =>
    simp only [visitExpr]
    exact flagFalse_visitExprList _ _ (flagFalse_visitExpr _ _ hf)
  | arrayE es =>
    simp only [visitExpr]
    exact flagFalse_visitExprList _ _ hf

theorem flagFalse_visitExprList (st : TransformVisitor) (es : ExprList)
    (hf : st.is_in_replaceable_scope = false) :
    (visitExprList st es).1.is_in_replaceable_scope = false := by
  cases es with
  | nil => simpa only [visitExprList] using hf
  | cons e tl =>
    simp only [visitExprList]
    exact flagFalse_visitExprList _ _ (flagFalse_visitExpr _ _ hf)

theorem flagFalse_visitOptExpr (st : TransformVisitor) (a : OptExpr)
    (hf : st.is_in_replaceable_scope = false) :
    (visitOptExpr st a).1.is_in_replaceable_scope = false := by
  cases a with
  | noneE => simpa only [visitOptExpr] using hf
  | someE e =>
    simp only [visitOptExpr]
    exact flagFalse_visitExpr _ _ hf

theorem flagFalse_visitPat (st : TransformVisitor) (p : Pat)
    (hf : st.is_in_replaceable_scope = false) :
    (visitPat st p).1.is_in_replaceable_scope = false := by
  cases p with
  | identP i => simp only [visitPat]; rw [visitIdent_flag]; exact hf
  | arrayP ps =>
    simp only [visitPat]
    exact flagFalse_visitPatList _ _ hf

theorem flagFalse_visitPatList (st : TransformVisitor) (ps : PatList)
    (hf : st.is_in_replaceable_scope = false) :
    (visitPatList st ps).1.is_in_replaceable_scope = false := by
  cases ps with
  | nil => simpa only [visitPatList] using hf
  | cons p tl =>
    simp only [visitPatList]
    exact flagFalse_visitPatList _ _ (flagFalse_visitPat _ _ hf)

theorem flagFalse_visitVarDeclarator (st : TransformVisitor) (d : VarDeclarator)
    (hf : st.is_in_replaceable_scope = false) :
    (visitVarDeclarator st d).1.is_in_replaceable_scope = false := by
  cases d with
  | mk name init =>
    cases hcs : st.current_scope_symbol with
    | some s =>
      unfold visitVarDeclarator
      rw [hcs]
      exact flagFalse_visitOptExpr _ _ (flagFalse_visitPat _ _ hf)
    | none =>
      cases name with
      | arrayP ps =>
        unfold visitVarDeclarator
        rw [hcs]
        exact flagFalse_visitOptExpr _ _ (flagFalse_visitPat _ _ hf)
      | identP ident =>
        cases init with
        | noneE =>
          unfold visitVarDeclarator
          rw [hcs]
          exact flagFalse_visitOptExpr _ _ (flagFalse_visitPat _ _ hf)
        | someE e =>
          cases e with
          | arrow ps body =>
            unfold visitVarDeclarator
            rw [hcs]
            exact flagFalse_visitStmtList _ _ (flagFalse_visitPatList _ _ hf)
          | identE i =>
            unfold visitVarDeclarator
            rw [hcs]
            exact flagFalse_visitOptExpr _ _ (flagFalse_visitPat _ _ hf)
          | jsx i =>
            unfold visitVarDeclarator
            rw [hcs]
            exact flagFalse_visitOptExpr _ _ (flagFalse_visitPat _ _ hf)
          | lit n =>
            unfold visitVarDeclarator
            rw [hcs]
            exact flagFalse_visitOptExpr _ _ (flagFalse_visitPat _ _ hf)
          | call f args =>
            unfold visitVarDeclarator
            rw [hcs]
            exact flagFalse_visitOptExpr _ _ (flagFalse_visitPat _ _ hf)
          | arrayE es =>
            unfold visitVarDeclarator
            rw [hcs]
            exact flagFalse_visitOptExpr _ _ (flagFalse_visitPat _ _ hf)

theorem flagFalse_visitDeclaratorList (st : TransformVisitor) (ds : DeclaratorList)
    (hf : st.is_in_replaceable_scope = false) :
    (visitDeclaratorList st ds).1.is_in_replaceable_scope = false := by
  cases ds with
  | nil => simpa only [visitDeclaratorList] using hf
  | cons d tl =>
    simp only [visitDeclaratorList]
    exact flagFalse_visitDeclaratorList _ _ (flagFalse_visitVarDeclarator _ _ hf)

theorem flagFalse_visitFunction (st : TransformVisitor) (f : Fn)
    (hf : st.is_in_replaceable_scope = false) :
    (visitFunction st f).1.is_in_replaceable_scope = false := by
  cases f with
  | mk body =>
    cases body with
    | noneS =>
      unfold visitFunction
      exact hf
    | someS stmts =>
      cases hcs : st.current_scope_symbol with
      | none =>
        unfold visitFunction
        rw [hcs]
        exact hf
      | some s =>
        unfold visitFunction
        rw [hcs]

theorem flagFalse_visitMethod (st : TransformVisitor) (m : ClassMethod)
    (hf : st.is_in_replaceable_scope = false) :
    (visitMethod st m).1.is_in_replaceable_scope = false := by
  cases m with
  | mk key f =>
    simp only [visitMethod]
    exact flagFalse_visitFunction _ _ hf

theorem flagFalse_visitMethodList (st : TransformVisitor) (ms : MethodList)
    (hf : st.is_in_replaceable_scope = false) :
    (visitMethodList st ms).1.is_in_replaceable_scope = false := by
  cases ms with
  | nil => simpa only [visitMethodList] using hf
  | cons m tl =>
    simp only [visitMethodList]
    exact flagFalse_visitMethodList _ _ (flagFalse_visitMethod _ _ hf)

theorem flagFalse_visitClassDecl (st : TransformVisitor) (c : ClassDecl)
    (hf : st.is_in_replaceable_scope = false) :
    (visitClassDecl st c).1.is_in_replaceable_scope = false := by
  cases c with
  | mk ident superClass body =>
    simp only [visitClassDecl]
    have h1 : (visitIdent { st with current_scope_symbol := some ident.sym }
        ident).1.is_in_replaceable_scope = false := by
      rw [visitIdent_flag]; exact hf
    exact flagFalse_visitOptExpr _ _ (flagFalse_visitMethodList _ _ h1)

theorem flagFalse_visitStmt (st : TransformVisitor) (s : Stmt)
    (hf : st.is_in_replaceable_scope = false) :
    (visitStmt st s).1.is_in_replaceable_scope = false := by
  cases s with
  | ret a => simp only [visitStmt]; exact flagFalse_visitOptExpr _ _ hf
  | exprStmt e => simp only [visitStmt]; exact flagFalse_visitExpr _ _ hf
  | varDecl kind ds => simp only [visitStmt]; exact flagFalse_visitDeclaratorList _ _ hf
  | fnDecl ident f =>
    cases hcs : st.current_scope_symbol with
    | none =>
      unfold visitStmt
      rw [hcs]
      apply flagFalse_visitFunction
      rw [visitIdent_flag]
      exact hf
    | some s =>
      unfold visitStmt
      rw [hcs]
      apply flagFalse_visitFunction
      rw [visitIdent_flag]
      exact hf
  | classDecl c => simp only [visitStmt]; exact flagFalse_visitClassDecl _ _ hf
  | emptyStmt => simpa only [visitStmt] using hf

theorem flagFalse_visitStmtList (st : TransformVisitor) (ss : StmtList)
    (hf : st.is_in_replaceable_scope = false) :
    (visitStmtList st ss).1.is_in_replaceable_scope = false := by
  cases ss with
  | nil => simpa only [visitStmtList] using hf
  | cons s tl =>
    simp only [visitStmtList]
    exact flagFalse_visitStmtList _ _ (flagFalse_visitStmt _ _ hf)

end

/-! ### Import declarations are never touched

At module top level the replaceable flag is off (and stays off, by the
lemmas above), and `visit_mut_ident` is the only handler that could mutate
an import declaration's children — so import declarations pass through the
traversal unchanged. -/

theorem visitImportSpecifierNode_false (st : TransformVisitor) (s : ImportSpecifier)
    (hf : st.is_in_replaceable_scope = false) :
    visitImportSpecifierNode st s = (st, s) := by
  cases s with
  | named l imported ito =>
    simp only [visitImportSpecifierNode]
    rw [visitIdent_false st l hf]
  | defaultSpec l =>
    simp only [visitImportSpecifierNode]
    rw [visitIdent_false st l hf]
  | namespaceSpec l =>
    simp only [visitImportSpecifierNode]
    rw [visitIdent_false st l hf]

theorem visitImportSpecifiers_false (specs : List ImportSpecifier) :
    ∀ st : TransformVisitor, st.is_in_replaceable_scope = false →
      visitImportSpecifiers st specs = (st, specs) := by
  induction specs with
  | nil => intro st hf; rfl
  | cons s rest ih =>
    intro st hf
    simp only [visitImportSpecifiers]
    rw [visitImportSpecifierNode_false st s hf, ih st hf]

theorem visitImportDeclNode_false (st : TransformVisitor) (d : ImportDecl)
    (hf : st.is_in_replaceable_scope = false) :
    visitImportDeclNode st d = (st, d) := by
  simp only [visitImportDeclNode]
  rw [visitImportSpecifiers_false d.specifiers st hf]

theorem importDecls_preserved (items : List ModuleItem) :
    ∀ st : TransformVisitor, st.is_in_replaceable_scope = false →
      importDeclsOf (visitModuleItems st items).2 = importDeclsOf items := by
  induction items with
  | nil => intro st hf; rfl
  | cons item rest ih =>
    intro st hf
    cases item with
    | importItem d =>
      simp only [visitModuleItems, visitModuleItem]
      rw [visitImportDeclNode_false st d hf]
      simp only [importDeclsOf, List.filterMap_cons]
      rw [← importDeclsOf, ← importDeclsOf, ih st hf]
    | stmtItem s =>
      simp only [visitModuleItems, visitModuleItem]
      simp only [importDeclsOf, List.filterMap_cons]
      rw [← importDeclsOf, ← importDeclsOf, ih _ (flagFalse_visitStmt st s hf)]

/-- With a scope name active, `visit_mut_var_declarator` always takes its
default child-traversal path (the arrow special case requires an absent
scope name). -/
theorem visitVarDeclarator_scopeSome (st : TransformVisitor) (sc : String)
    (name : Pat) (init : OptExpr)
    (hs : st.current_scope_symbol = some sc) :
    visitVarDeclarator st (.mk name init) =
      ((visitOptExpr (visitPat st name).1 init).1,
       .mk (visitPat st name).2 (visitOptExpr (visitPat st name).1 init).2) := by
  cases hcs : st.current_scope_symbol with
  | none => rw [hs] at hcs; exact Option.noConfusion hcs
  | some s =>
    unfold visitVarDeclarator
    rw [hcs]

/-! ### Refinement: one plain body traversal = rename + collect

While the replaceable flag is on and a scope name is active, visiting any
plain (function-free) subtree renames every matching reference and appends
its replacements, in traversal order, to the accumulation list — and
changes nothing else in the state. -/

mutual

theorem plainVisit_expr (st : TransformVisitor) (sc : String) (e : Expr)
    (hf : st.is_in_replaceable_scope = true)
    (hs : st.current_scope_symbol = some sc)
    (hp : plainExpr e = true) :
    visitExpr st e =
      ({ st with active_replacements :=
          st.active_replacements ++ collectExpr st.imports e },
       renameExpr st.imports e) := by
  cases e with
  | identE i =>
    simp only [visitExpr, renameExpr, collectExpr, visitIdent_true st i hf]
  | jsx i =>
    simp only [visitExpr, renameExpr, collectExpr, visitIdent_true st i hf]
  | lit n =>
    simp only [visitExpr, renameExpr, collectExpr, List.append_nil]
  | arrow ps body =>
    simp only [plainExpr, Bool.and_eq_true] at hp
    have h1 := plainVisit_patList st sc ps hf hs hp.1
    have h2 := plainVisit_stmtList
      { st with active_replacements :=
          st.active_replacements ++ collectPatList st.imports ps }
      sc body hf hs hp.2
    simp only [visitExpr, renameExpr, collectExpr, h1, h2, List.append_assoc]
  | call f args =>
    simp only [plainExpr, Bool.and_eq_true] at hp
    have h1 := plainVisit_expr st sc f hf hs hp.1
    have h2 := plainVisit_exprList
      { st with active_replacements :=
          st.active_replacements ++ collectExpr st.imports f }
      sc args hf hs hp.2
    simp only [visitExpr, renameExpr, collectExpr, h1, h2, List.append_assoc]
  | arrayE es =>
    simp only [plainExpr] at hp
    have h1 := plainVisit_exprList st sc es hf hs hp
    simp only [visitExpr, renameExpr, collectExpr, h1]
termination_by sizeOf e

theorem plainVisit_exprList (st : TransformVisitor) (sc : String) (es : ExprList)
    (hf : st.is_in_replaceable_scope = true)
    (hs : st.current_scope_symbol = some sc)
    (hp : plainExprList es = true) :
    visitExprList st es =
      ({ st with active_replacements :=
          st.active_replacements ++ collectExprList st.imports es },
       renameExprList st.imports es) := by
  cases es with
  | nil =>
    simp only [visitExprList, renameExprList, collectExprList, List.append_nil]
  | cons e tl =>
    simp only [plainExprList, Bool.and_eq_true] at hp
    have h1 := plainVisit_expr st sc e hf hs hp.1
    have h2 := plainVisit_exprList
      { st with active_replacements :=
          st.active_replacements ++ collectExpr st.imports e }
      sc tl hf hs hp.2
    simp only [visitExprList, renameExprList, collectExprList, h1, h2,
      List.append_assoc]
termination_by sizeOf es

theorem plainVisit_optExpr (st : TransformVisitor) (sc : String) (a : OptExpr)
    (hf : st.is_in_replaceable_scope = true)
    (hs : st.current_scope_symbol = some sc)
    (hp : plainOptExpr a = true) :
    visitOptExpr st a =
      ({ st with active_replacements :=
          st.active_replacements ++ collectOptExpr st.imports a },
       renameOptExpr st.imports a) := by
  cases a with
  | noneE =>
    simp only [visitOptExpr, renameOptExpr, collectOptExpr, List.append_nil]
  | someE e =>
    simp only [plainOptExpr] at hp
    have h1 := plainVisit_expr st sc e hf hs hp
    simp only [visitOptExpr, renameOptExpr, collectOptExpr, h1]
termination_by sizeOf a

theorem plainVisit_pat (st : TransformVisitor) (sc : String) (p : Pat)
    (hf : st.is_in_replaceable_scope = true)
    (hs : st.current_scope_symbol = some sc)
    (hp : plainPat p = true) :
    visitPat st p =
      ({ st with active_replacements :=
          st.active_replacements ++ collectPat st.imports p },
       renamePat st.imports p) := by
  cases p with
  | identP i =>
    simp only [visitPat, renamePat, collectPat, visitIdent_true st i hf]
  | arrayP ps =>
    simp only [plainPat] at hp
    have h1 := plainVisit_patList st sc ps hf hs hp
    simp only [visitPat, renamePat, collectPat, h1]
termination_by sizeOf p

theorem plainVisit_patList (st : TransformVisitor) (sc : String) (ps : PatList)
    (hf : st.is_in_replaceable_scope = true)
    (hs : st.current_scope_symbol = some sc)
    (hp : plainPatList ps = true) :
    visitPatList st ps =
      ({ st with active_replacements :=
          st.active_replacements ++ collectPatList st.imports ps },
       renamePatList st.imports ps) := by
  cases ps with
  | nil =>
    simp only [visitPatList, renamePatList, collectPatList, List.append_nil]
  | cons p tl =>
    simp only [plainPatList, Bool.and_eq_true] at hp
    have h1 := plainVisit_pat st sc p hf hs hp.1
    have h2 := plainVisit_patList
      { st with active_replacements :=
          st.active_replacements ++ collectPat st.imports p }
      sc tl hf hs hp.2
    simp only [visitPatList, renamePatList, collectPatList, h1, h2,
      List.append_assoc]
termination_by sizeOf ps

theorem plainVisit_declarator (st : TransformVisitor) (sc : String)
    (d : VarDeclarator)
    (hf : st.is_in_replaceable_scope = true)
    (hs : st.current_scope_symbol = some sc)
    (hp : plainDeclarator d = true) :
    visitVarDeclarator st d =
      ({ st with active_replacements :=
          st.active_replacements ++ collectDeclarator st.imports d },
       renameDeclarator st.imports d) := by
  cases d with
  | mk name init =>
    simp only [plainDeclarator, Bool.and_eq_true] at hp
    have h1 := plainVisit_pat st sc name hf hs hp.1
    have h2 := plainVisit_optExpr
      { st with active_replacements :=
          st.active_replacements ++ collectPat st.imports name }
      sc init hf hs hp.2
    rw [visitVarDeclarator_scopeSome st sc name init hs]
    simp only [renameDeclarator, collectDeclarator, h1, h2, List.append_assoc]
termination_by sizeOf d

theorem plainVisit_declaratorList (st : TransformVisitor) (sc : String)
    (ds : DeclaratorList)
    (hf : st.is_in_replaceable_scope = true)
    (hs : st.current_scope_symbol = some sc)
    (hp : plainDeclaratorList ds = true) :
    visitDeclaratorList st ds =
      ({ st with active_replacements :=
          st.active_replacements ++ collectDeclaratorList st.imports ds },
       renameDeclaratorList st.imports ds) := by
  cases ds with
  | nil =>
    simp only [visitDeclaratorList, renameDeclaratorList, collectDeclaratorList,
      List.append_nil]
  | cons d tl =>
    simp only [plainDeclaratorList, Bool.and_eq_true] at hp
    have h1 := plainVisit_declarator st sc d hf hs hp.1
    have h2 := plainVisit_declaratorList
      { st with active_replacements :=
          st.active_replacements ++ collectDeclarator st.imports d }
      sc tl hf hs hp.2
    simp only [visitDeclaratorList, renameDeclaratorList, collectDeclaratorList,
      h1, h2, List.append_assoc]
termination_by sizeOf ds

theorem plainVisit_stmt (st : TransformVisitor) (sc : String) (s : Stmt)
    (hf : st.is_in_replaceable_scope = true)
    (hs : st.current_scope_symbol = some sc)
    (hp : plainStmt s = true) :
    visitStmt st s =
      ({ st with active_replacements :=
          st.active_replacements ++ collectStmt st.imports s },
       renameStmt st.imports s) := by
  cases s with
  | ret a =>
    simp only [plainStmt] at hp
    have h1 := plainVisit_optExpr st sc a hf hs hp
    simp only [visitStmt, renameStmt, collectStmt, h1]
  | exprStmt e =>
    simp only [plainStmt] at hp
    have h1 := plainVisit_expr st sc e hf hs hp
    simp only [visitStmt, renameStmt, collectStmt, h1]
  | varDecl kind ds =>
    simp only [plainStmt] at hp
    have h1 := plainVisit_declaratorList st sc ds hf hs hp
    simp only [visitStmt, renameStmt, collectStmt, h1]
  | fnDecl ident f => simp [plainStmt] at hp
  | classDecl c => simp [plainStmt] at hp
  | emptyStmt =>
    simp only [visitStmt, renameStmt, collectStmt, List.append_nil]
termination_by sizeOf s

theorem plainVisit_stmtList (st : TransformVisitor) (sc : String) (ss : StmtList)
    (hf : st.is_in_replaceable_scope = true)
    (hs : st.current_scope_symbol = some sc)
    (hp : plainStmtList ss = true) :
    visitStmtList st ss =
      ({ st with active_replacements :=
          st.active_replacements ++ collectStmtList st.imports ss },
       renameStmtList st.imports ss) := by
  cases ss with
  | nil =>
    simp only [visitStmtList, renameStmtList, collectStmtList, List.append_nil]
  | cons s tl =>
    simp only [plainStmtList, Bool.and_eq_true] at hp
    have h1 := plainVisit_stmt st sc s hf hs hp.1
    have h2 := plainVisit_stmtList
      { st with active_replacements :=
          st.active_replacements ++ collectStmt st.imports s }
      sc tl hf hs hp.2
    simp only [visitStmtList, renameStmtList, collectStmtList, h1, h2,
      List.append_assoc]
termination_by sizeOf ss

end

/-! ### The claims -/

/-- C1: for the module `import React, { Component } from 'react'; import
Modal from 'modal'; class MyComponent extends Component { render() {
return <Modal/>; } }`, the transform produces a `render` body whose first
statement is `const [_Modal] = _di([Modal], MyComponent);`, followed by
`return <_Modal/>;` with the reference renamed to `"_" + local_name`, and
both import declarations unchanged. -/
theorem claim1_class_component_output :
    transformProgram classComponentModule = classComponentExpected := rfl

/-- C2 counterexample: an import declaration that is not type-only as a
whole but whose named specifier is individually type-only still yields an
`ImportSpecification` (with `is_type_only = true`), and a reference bound
to it is rewritten — `visit_import_decl` records named specifiers
unconditionally and the `is_type_only` field is never consulted.  So the
claim that such a specifier is excluded from the table and its references
never rewritten is false at this input. -/
theorem claim2_counterexample :
    analyzeProgram typeOnlySpecifierModule = [xSpec] ∧
    transformProgram typeOnlySpecifierModule = typeOnlySpecifierExpected ∧
    transformProgram typeOnlySpecifierModule ≠ typeOnlySpecifierModule :=
  ⟨rfl, rfl, by decide⟩

/-- C2 amended: a named specifier of a non-type-only declaration is always
entered into the import table — its individual type-only marking is only
recorded in the (never consulted) `is_type_only` field — while a
declaration that is type-only as a whole contributes no entries. -/
theorem claim2_amended :
    (∀ (l : Ident) (imported : Option String) (ito : Bool) (src : String),
      analyzeImportDecl ⟨[.named l imported ito], src, false⟩ =
        [⟨l.toId, l.sym, imported.getD l.sym, src, ito⟩]) ∧
    (∀ (specifiers : List ImportSpecifier) (src : String),
      analyzeImportDecl ⟨specifiers, src, true⟩ = []) :=
  ⟨fun l imported ito src => rfl, fun specifiers src => rfl⟩

/-- C3: completing any function body's synthesis step (body present, scope
active) unconditionally clears `is_in_replaceable_scope`; concretely, in
`function F() { Modal; function G() {} Modal; }` the reference after the
nested function is left unrewritten even though `F`'s traversal is still in
progress under scope `F`. -/
theorem claim3_nested_function_deactivation :
    (∀ (st : TransformVisitor) (sc : String) (body : StmtList),
      (visitFunction { st with current_scope_symbol := some sc }
        (.mk (.someS body))).1.is_in_replaceable_scope = false) ∧
    visitStmt initialModalState nestedOuterFn = (initialModalState, nestedOuterExpected) :=
  ⟨fun st sc body => rfl, rfl⟩

/-- C4 counterexample: in `function F() { Modal; Modal; function G() {} }`
the two replacements recorded while traversing `F`'s own children are
synthesized into the nested `G` body (and `F` receives none), contradicting
the claim that a body's synthesis step converts exactly the matches
recorded in that body's own traversal. -/
theorem claim4_counterexample :
    visitStmt initialModalState doubleThenNestedFn =
      (initialModalState, doubleThenNestedExpected) ∧
    doubleThenNestedExpected ≠ doubleThenNestedClaimPredicted :=
  ⟨rfl, by decide⟩

/-- C4 amended: the accumulation list is a single list shared across nested
function-body traversals: every completed synthesis step empties it
(`take`), and whatever it holds at that moment — including replacements
recorded in an enclosing body before the nested function was entered — is
synthesized into the innermost completing body, as the second conjunct
shows for a body with an empty statement list and one pre-accumulated
replacement. -/
theorem claim4_amended :
    (∀ (st : TransformVisitor) (sc : String) (body : StmtList),
      (visitFunction { st with current_scope_symbol := some sc }
        (.mk (.someS body))).1.active_replacements = []) ∧
    (∀ (st : TransformVisitor) (sc : String) (r : ActiveReplacement),
      (visitFunction
        { st with current_scope_symbol := some sc, active_replacements := [r] }
        (.mk (.someS .nil))).2 =
      .mk (.someS (.cons (mkInjectionStmt sc r) .nil))) :=
  ⟨fun st sc body => rfl, fun st sc r => rfl⟩

/-- C5 counterexample: leaving a class declaration entered while the scope
name `Outer` was active does not restore `Outer` — `visit_mut_class_decl`
sets the scope name to `None` on exit. -/
theorem claim5_counterexample :
    (visitClassDecl outerScopedState innerClass).1.current_scope_symbol ≠
      outerScopedState.current_scope_symbol := by decide

/-- C5 amended: exiting a class declaration always sets the scope name to
absent (rather than restoring the prior value); function declarations and
arrow-initialized declarators only ever set a scope name when none is
active, and also end with the scope name absent — which for them coincides
with their prior value. -/
theorem claim5_amended :
    (∀ (st : TransformVisitor) (c : ClassDecl),
      (visitClassDecl st c).1.current_scope_symbol = none) ∧
    (∀ (st : TransformVisitor) (i : Ident) (f : Fn),
      (visitStmt { st with current_scope_symbol := none }
        (.fnDecl i f)).1.current_scope_symbol = none) ∧
    (∀ (st : TransformVisitor) (i : Ident) (ps : PatList) (body : StmtList),
      (visitVarDeclarator { st with current_scope_symbol := none }
        (.mk (.identP i) (.someE (.arrow ps body)))).1.current_scope_symbol = none) := by
  refine ⟨fun st c => ?_, fun st i f => rfl, fun st i ps body => rfl⟩
  cases c with
  | mk ident superClass body => rfl

/-- C6: the function-declaration component is transformed (injection and
rename), but the arrow-variable component of the repository's own inline
test is returned completely unchanged — replaceability is only ever
activated by `visit_mut_function`, and an `ArrowExpr` contains no
`Function` node — so the transform's output differs from the output that
test asserts. -/
theorem claim6_arrow_divergence :
    transformProgram fnComponentModule = fnComponentExpected ∧
    transformProgram arrowComponentModule = arrowComponentModule ∧
    transformProgram arrowComponentModule ≠ arrowComponentTestExpected :=
  ⟨rfl, rfl, by decide⟩

/-- C7: an identifier whose binding identity matches no import-table entry
is left untouched and records no replacement, whatever the state; in
particular the whole shadowed module `import Modal from 'modal';
function F() { const Modal = 5; return Modal; }` passes through the
transform unchanged. -/
theorem claim7_shadow_safety :
    (∀ (st : TransformVisitor) (i : Ident),
      (∀ spec ∈ st.imports, spec.symbol_id ≠ i.toId) →
        visitIdent st i = (st, i)) ∧
    transformProgram shadowModule = shadowModule := by
  refine ⟨fun st i h => ?_, rfl⟩
  cases hf : st.is_in_replaceable_scope with
  | false => exact visitIdent_false st i hf
  | true =>
    have hnone : matchedSpec st.imports i = none := by
      simp only [matchedSpec, List.find?_eq_none, decide_eq_true_eq]
      exact h
    rw [visitIdent_true st i hf]
    simp [renameIdent, collectIdent, hnone]

/-- C7 witness: the hypothesis holds for the shadowed local `Modal`
reference (`("Modal", 7)`) against the table holding only the import's
`("Modal", 3)` identity, and the reference is indeed untouched. -/
theorem claim7_shadow_safety_witness :
    visitIdent shadowState shadowedModalIdent = (shadowState, shadowedModalIdent) :=
  claim7_shadow_safety.1 shadowState shadowedModalIdent (by decide)

/-- C8 counterexample: in the body `return <M8/>; function H() {} M8;`
containing two references matching the same import, the second reference is
not renamed and zero declarations are prepended to the body (the first
reference's declaration lands inside `H`), contradicting the claim that
each of the n matching references is renamed and exactly n declarations
are prepended. -/
theorem claim8_counterexample :
    visitFunction c8State (.mk (.someS splitBody)) =
      (c8State, .mk (.someS splitBodyExpected)) ∧
    splitBodyExpected ≠ splitBodyClaimPredicted :=
  ⟨rfl, by decide⟩

/-- C8 amended: for a function body whose statements contain no nested
function or class declarations, entered with an empty accumulation list,
every reference matching an import is renamed to its alias and exactly one
declaration per match is prepended, in first-occurrence order with no
deduplication (`injectionStmts` over `collectStmtList`, whose length adds
one statement per replacement); the concrete `dupRefModule` shows two
references to the same import yielding two identical declarations. -/
theorem claim8_amended :
    (∀ (st : TransformVisitor) (sc : String) (body : StmtList),
      plainStmtList body = true →
        visitFunction
          { st with active_replacements := [], current_scope_symbol := some sc }
          (.mk (.someS body)) =
        ({ st with
            active_replacements := [], current_scope_symbol := some sc,
            is_in_replaceable_scope := false },
         .mk (.someS (injectionStmts sc (collectStmtList st.imports body)
           (renameStmtList st.imports body))))) ∧
    (∀ (sc : String) (reps : List ActiveReplacement) (rest : StmtList),
      stmtListLength (injectionStmts sc reps rest) =
        reps.length + stmtListLength rest) ∧
    transformProgram dupRefModule = dupRefExpected := by
  refine ⟨fun st sc body hp => ?_, fun sc reps rest => ?_, rfl⟩
  · have h := plainVisit_stmtList
      { st with
        active_replacements := [], current_scope_symbol := some sc,
        is_in_replaceable_scope := true } sc body rfl rfl hp
    simp only [visitFunction, h, List.nil_append]
  · induction reps with
    | nil => simp [injectionStmts]
    | cons r rs ih =>
      simp only [injectionStmts, stmtListLength, ih, List.length_cons]
      omega

/-- C8 amended witness: the plain-body hypothesis holds for the concrete
one-reference body `M8;` under scope `W`. -/
theorem claim8_amended_witness :
    visitFunction
      { c8WitnessState with
        active_replacements := [],
        current_scope_symbol := some "W" }
      (.mk (.someS witnessBody)) =
    ({ c8WitnessState with
        active_replacements := [],
        current_scope_symbol := some "W", is_in_replaceable_scope := false },
     .mk (.someS (injectionStmts "W" (collectStmtList c8WitnessState.imports witnessBody)
       (renameStmtList c8WitnessState.imports witnessBody)))) :=
  claim8_amended.1 c8WitnessState "W" witnessBody rfl

/-- C9: the transform leaves the module's import declarations — their
specifiers, local names and module specifier strings — exactly as in the
input, for every module. -/
theorem claim9_imports_unchanged (items : List ModuleItem) :
    importDeclsOf (transformProgram items) = importDeclsOf items := by
  simp only [transformProgram]
  exact importDecls_preserved items _ rfl

/-- C10: a `Function` node whose body is absent, or reached while no scope
name is active, is returned with state and subtree completely unchanged —
its children are not traversed at all. -/
theorem claim10_inactive_function_untouched :
    (∀ st : TransformVisitor, visitFunction st (.mk .noneS) = (st, .mk .noneS)) ∧
    (∀ (st : TransformVisitor) (body : StmtList),
      visitFunction { st with current_scope_symbol := none } (.mk (.someS body)) =
        ({ st with current_scope_symbol := none }, .mk (.someS body))) :=
  ⟨fun st => rfl, fun st body => rfl⟩

/-- C2 amended witness: the general table shape instantiated at the
concrete individually type-only specifier `{ type X }` from `'pkg'`. -/
theorem claim2_amended_witness :
    analyzeImportDecl ⟨[.named ⟨"X", 1⟩ none true], "pkg", false⟩ = [xSpec] :=
  claim2_amended.1 ⟨"X", 1⟩ none true "pkg"

/-- C3 witness: the unconditional deactivation instantiated at a concrete
state, scope and body. -/
theorem claim3_witness :
    (visitFunction { initialModalState with current_scope_symbol := some "F" }
      (.mk (.someS renderBody))).1.is_in_replaceable_scope = false :=
  claim3_nested_function_deactivation.1 initialModalState "F" renderBody

/-- C4 amended witness: clearing and the shared-list synthesis instantiated
at concrete inputs. -/
theorem claim4_amended_witness :
    (visitFunction { initialModalState with current_scope_symbol := some "F" }
      (.mk (.someS .nil))).1.active_replacements = [] ∧
    (visitFunction
      { initialModalState with
        current_scope_symbol := some "F",
        active_replacements := [modalReplacement] }
      (.mk (.someS .nil))).2 =
    .mk (.someS (.cons (mkInjectionStmt "F" modalReplacement) .nil)) :=
  ⟨claim4_amended.1 initialModalState "F" .nil,
   claim4_amended.2 initialModalState "F" modalReplacement⟩

/-- C5 amended witness: the three exit behaviors instantiated at concrete
states and nodes. -/
theorem claim5_amended_witness :
    (visitClassDecl outerScopedState innerClass).1.current_scope_symbol = none ∧
    (visitStmt { outerScopedState with current_scope_symbol := none }
      (.fnDecl ⟨"F", 2⟩ (.mk .noneS))).1.current_scope_symbol = none ∧
    (visitVarDeclarator { outerScopedState with current_scope_symbol := none }
      (.mk (.identP ⟨"A", 1⟩)
        (.someE (.arrow .nil .nil)))).1.current_scope_symbol = none :=
  ⟨claim5_amended.1 outerScopedState innerClass,
   claim5_amended.2.1 outerScopedState ⟨"F", 2⟩ (.mk .noneS),
   claim5_amended.2.2 outerScopedState ⟨"A", 1⟩ .nil .nil⟩

/-- C9 witness: import preservation instantiated at the class-component
module. -/
theorem claim9_imports_unchanged_witness :
    importDeclsOf (transformProgram classComponentModule) =
      importDeclsOf classComponentModule :=
  claim9_imports_unchanged classComponentModule

/-- C10 witness: both no-op paths instantiated at concrete inputs. -/
theorem claim10_witness :
    visitFunction initialModalState (.mk .noneS) =
      (initialModalState, .mk .noneS) ∧
    visitFunction { initialModalState with current_scope_symbol := none }
      (.mk (.someS renderBody)) =
    ({ initialModalState with current_scope_symbol := none },
     .mk (.someS renderBody)) :=
  ⟨claim10_inactive_function_untouched.1 initialModalState,
   claim10_inactive_function_untouched.2 initialModalState renderBody⟩
